import Mathlib

/-!
Shallow embedding of the Claude Code IDE bridge of the aiterm repository
(src/src-tauri/src/claude_code/{server,protocol,lockfile}.rs and
src/src-tauri/src/commands/claude_code.rs), together with theorems settling
the behavioural claims about the dispatch core, the pending-call table, the
authentication gates, the lock-file sweep, the settings registration and the
notification-target slot.

JSON values are modelled by the inductive `Json` below; serde_json's parsing
of wire text is treated as an oracle (the dispatch core receives the parse
result), while serde_json's serialisation is modelled executably by
`Json.serialize`.  JSON numbers are modelled as integers: no claim in scope
depends on floating-point formatting.
-/

namespace Aiterm

/-- Model of `serde_json::Value` (numbers restricted to integers). -/
inductive Json where
  | null : Json
  | bool (b : Bool) : Json
  | num (n : Int) : Json
  | str (s : String) : Json
  | arr (items : List Json) : Json
  | obj (fields : List (String × Json)) : Json
deriving Repr, BEq

/-- `Value::get(key)` on an object: first binding of `key` (objects keep unique keys). -/
def Json.get : Json → String → Option Json
  | .obj fields, key => (fields.find? (fun p => p.1 = key)).map Prod.snd
  | _, _ => none

/-- `Value::as_str()`. -/
def Json.asStr : Json → Option String
  | .str s => some s
  | _ => none

/-- `Value::as_u64()` (on our integer-only numbers: non-negative integers). -/
def Json.asU64 : Json → Option Nat
  | .num n => if 0 ≤ n then some n.toNat else none
  | _ => none

/-- Hex digit for string escapes (lowercase, as serde_json emits). -/
def hexDigit (n : Nat) : Char :=
  if n < 10 then Char.ofNat (48 + n) else Char.ofNat (87 + n)

/-- Four-digit hex rendering used in `\u00XX` escapes. -/
def hex4 (n : Nat) : String :=
  String.mk [hexDigit (n / 4096 % 16), hexDigit (n / 256 % 16),
             hexDigit (n / 16 % 16), hexDigit (n % 16)]

/-- serde_json string-character escaping. -/
def escapeJsonChar (c : Char) : String :=
  if c = '"' then "\\\""
  else if c = '\\' then "\\\\"
  else if c = '\n' then "\\n"
  else if c = '\r' then "\\r"
  else if c = '\t' then "\\t"
  else if c.toNat = 8 then "\\b"
  else if c.toNat = 12 then "\\f"
  else if c.toNat < 32 then "\\u" ++ hex4 c.toNat
  else String.singleton c

/-- serde_json string escaping (body of a quoted string). -/
def escapeJson (s : String) : String :=
  String.join (s.toList.map escapeJsonChar)

mutual

/-- Model of `serde_json::to_string` (compact form). -/
def Json.serialize : Json → String
  | .null => "null"
  | .bool true => "true"
  | .bool false => "false"
  | .num n => toString n
  | .str s => "\"" ++ escapeJson s ++ "\""
  | .arr items => "[" ++ serializeItems items ++ "]"
  | .obj fields => "\x7b" ++ serializeFields fields ++ "\x7d"

/-- Comma-separated serialisation of array items. -/
def serializeItems : List Json → String
  | [] => ""
  | [x] => Json.serialize x
  | x :: xs => Json.serialize x ++ "," ++ serializeItems xs

/-- Comma-separated serialisation of object fields. -/
def serializeFields : List (String × Json) → String
  | [] => ""
  | [(k, v)] => "\"" ++ escapeJson k ++ "\":" ++ Json.serialize v
  | (k, v) :: fs =>
      "\"" ++ escapeJson k ++ "\":" ++ Json.serialize v ++ "," ++ serializeFields fs

end

/-! ## Protocol codec (src/src-tauri/src/claude_code/protocol.rs) -/

/-- `JsonRpcRequest` (serde-deserialised): `id` and `params` optional. -/
structure JsonRpcRequest where
  id : Option Json
  method : String
  params : Option Json
deriving Repr

/-- `JsonRpcError`. -/
structure JsonRpcError where
  code : Int
  message : String
deriving Repr, DecidableEq

/-- `JsonRpcResponse`. -/
structure JsonRpcResponse where
  jsonrpc : String
  id : Json
  result : Option Json
  error : Option JsonRpcError
deriving Repr

/-- `JsonRpcResponse::success`. -/
def JsonRpcResponse.success (id : Json) (result : Json) : JsonRpcResponse :=
  ⟨"2.0", id, some result, none⟩

/-- `JsonRpcResponse::error` (named `mkError` here: `error` collides with the field). -/
def JsonRpcResponse.mkError (id : Json) (code : Int) (message : String) : JsonRpcResponse :=
  ⟨"2.0", id, none, some ⟨code, message⟩⟩

/-- An input schema of shape `{"type":"object","properties":…,"required":…}`. -/
def inputSchema (props : List (String × Json)) (required : List String) : Json :=
  Json.obj [("type", Json.str "object"),
            ("properties", Json.obj props),
            ("required", Json.arr (required.map Json.str))]

/-- A string-typed property descriptor, optionally with a description. -/
def strProp (descr : Option String) : Json :=
  match descr with
  | none => Json.obj [("type", Json.str "string")]
  | some d => Json.obj [("type", Json.str "string"), ("description", Json.str d)]

/-- A number-typed property descriptor with a description. -/
def numProp (d : String) : Json :=
  Json.obj [("type", Json.str "number"), ("description", Json.str d)]

/-- `tool_list_response()`: the fixed advertised tool catalog. -/
def tool_list_response : Json :=
  Json.obj [("tools", Json.arr [
    Json.obj [("name", Json.str "getOpenEditors"),
      ("description", Json.str "Get a list of all currently open editor tabs in the aiTerm IDE. Returns file paths, active state, language, and dirty (unsaved changes) status."),
      ("inputSchema", inputSchema [] [])],
    Json.obj [("name", Json.str "getWorkspaceFolders"),
      ("description", Json.str "Get the workspace folder paths currently open in aiTerm. Returns root paths for each workspace."),
      ("inputSchema", inputSchema [] [])],
    Json.obj [("name", Json.str "getDiagnostics"),
      ("description", Json.str "Get language diagnostics (errors, warnings) for a file in the aiTerm editor."),
      ("inputSchema", inputSchema [("uri", strProp none)] [])],
    Json.obj [("name", Json.str "checkDocumentDirty"),
      ("description", Json.str "Check whether a document open in the aiTerm editor has unsaved changes."),
      ("inputSchema", inputSchema [("filePath", strProp none)] ["filePath"])],
    Json.obj [("name", Json.str "saveDocument"),
      ("description", Json.str "Save a document that is open in the aiTerm editor to disk."),
      ("inputSchema", inputSchema [("filePath", strProp none)] ["filePath"])],
    Json.obj [("name", Json.str "getCurrentSelection"),
      ("description", Json.str "Get the currently selected text and cursor position in the active aiTerm editor tab."),
      ("inputSchema", inputSchema [] [])],
    Json.obj [("name", Json.str "getLatestSelection"),
      ("description", Json.str "Get the most recent text selection made in any aiTerm editor tab."),
      ("inputSchema", inputSchema [] [])],
    Json.obj [("name", Json.str "openFile"),
      ("description", Json.str "Open a file in the aiTerm IDE editor tab. Use this tool whenever you need to show the user a file — do NOT use shell \x27open\x27 or other OS commands. Supports optional line range or text range selection to highlight a specific section."),
      ("inputSchema", inputSchema
        [("filePath", strProp (some "Absolute path to the file to open")),
         ("startLine", numProp "Line number to start selection (1-based)"),
         ("endLine", numProp "Line number to end selection (1-based)"),
         ("startText", strProp (some "Text string to find and start selection at")),
         ("endText", strProp (some "Text string to find and end selection at"))]
        ["filePath"])],
    Json.obj [("name", Json.str "openDiff"),
      ("description", Json.str "Show a diff of proposed file changes in the aiTerm IDE for the user to review, accept, or reject. Use this tool instead of directly writing files when you want the user to review changes. This is a blocking call — it waits for the user to accept or reject before returning."),
      ("inputSchema", inputSchema
        [("old_file_path", strProp (some "Path to the original file (used to read current content)")),
         ("new_file_path", strProp (some "Path where the modified file should be saved")),
         ("new_file_contents", strProp (some "The complete new file contents to show in the diff")),
         ("tab_name", strProp (some "Display name for the diff tab"))]
        ["new_file_path", "new_file_contents"])],
    Json.obj [("name", Json.str "closeAllDiffTabs"),
      ("description", Json.str "Close all open diff review tabs in the aiTerm IDE, rejecting any pending changes."),
      ("inputSchema", inputSchema [] [])]
  ])]

/-- `initialize_response()`; `APP_DISPLAY_NAME`/`APP_VERSION` are build-time
constants of the crate, passed in as parameters here. -/
def initialize_response (appName appVersion : String) : Json :=
  Json.obj [("protocolVersion", Json.str "2024-11-05"),
            ("capabilities", Json.obj [("tools", Json.obj [])]),
            ("serverInfo", Json.obj [("name", Json.str appName),
                                     ("version", Json.str appVersion)])]

/-- The tool names advertised by `tool_list_response`, extracted from the catalog. -/
def advertisedToolNames : List String :=
  match tool_list_response.get "tools" with
  | some (Json.arr tools) => tools.filterMap (fun t => (t.get "name").bind Json.asStr)
  | _ => []

/-! ## Dispatch & correlation core (src/src-tauri/src/claude_code/server.rs,
`handle_message` and the pending-call table `state.claude_code_pending`). -/

/-- `RESPONSE_TIMEOUT`, in seconds. -/
def RESPONSE_TIMEOUT_SECS : Nat := 120

/-- `PING_INTERVAL`, in seconds. -/
def PING_INTERVAL_SECS : Nat := 30

/-- `SSE_KEEPALIVE_INTERVAL`, in seconds. -/
def SSE_KEEPALIVE_INTERVAL_SECS : Nat := 15

/-- Outcome of the race awaited by the `tools/call` branch:
`tokio::time::timeout(RESPONSE_TIMEOUT, rx)` either yields the value sent on
the one-shot channel, observes the sender dropped without a value, or times
out.  The outcome is an oracle input to the embedded dispatch. -/
inductive CallOutcome where
  | resolved (result : Json)
  | disconnected
  | timedOut
deriving Repr

/-- The `claude-code-tool` event payload emitted toward the GUI. -/
structure ToolEvent where
  request_id : String
  tool : String
  arguments : Json
deriving Repr

/-- The pending-call table, abstracted to its key set (the one-shot senders are
opaque); `HashMap` keys are unique, so a `List String` with HashMap-style
insert/remove below. -/
abbrev PendingTable : Type := List String

/-- `HashMap::insert` on the key set: adds the key if absent. -/
def pendingInsert (t : PendingTable) (k : String) : PendingTable :=
  if List.contains t k then t else t ++ [k]

/-- `HashMap::remove` on the key set. -/
def pendingRemove (t : PendingTable) (k : String) : PendingTable :=
  List.filter (fun x => ¬ x = k) t

/-- Everything observable that one `handle_message` call produces: the raw
responses pushed onto `response_tx` (kept structured here; the wire form is
`Json.serialize` of the rendered response), the `claude-code-tool` events
emitted, and the final pending-call table. -/
structure DispatchResult where
  responses : List JsonRpcResponse
  events : List ToolEvent
  pending : PendingTable
deriving Repr

/-- `handle_message` (src/src-tauri/src/claude_code/server.rs:321-427).
`inbound = none` is the case where `serde_json::from_str::<JsonRpcRequest>`
fails (malformed JSON, or JSON that is not an object with a string `method`);
parsing itself is serde's and is treated as an oracle.  `request_id` stands
for the freshly generated `uuid`, `outcome` for the result of the awaited
race in the `tools/call` branch, and `pending` for the table contents at the
moment of the call. -/
def handle_message (inbound : Option JsonRpcRequest) (appName appVersion : String)
    (request_id : String) (outcome : CallOutcome) (pending : PendingTable) :
    DispatchResult :=
  match inbound with
  | none => ⟨[], [], pending⟩
  | some req =>
    let id := req.id.getD Json.null
    if req.method = "initialize" then
      ⟨[JsonRpcResponse.success id (initialize_response appName appVersion)], [], pending⟩
    else if req.method = "notifications/initialized" then
      ⟨[], [], pending⟩
    else if req.method = "tools/list" then
      ⟨[JsonRpcResponse.success id tool_list_response], [], pending⟩
    else if req.method = "tools/call" then
      match req.params with
      | some params =>
        let tool_name := ((params.get "name").bind Json.asStr).getD ""
        let arguments := (params.get "arguments").getD (Json.obj [])
        let afterInsert := pendingInsert pending request_id
        let ev : ToolEvent := ⟨request_id, tool_name, arguments⟩
        match outcome with
        | .resolved result =>
          let content_text := Json.serialize result
          ⟨[JsonRpcResponse.success id
              (Json.obj [("content", Json.arr [Json.obj
                [("type", Json.str "text"), ("text", Json.str content_text)]])])],
           [ev], afterInsert⟩
        | .disconnected =>
          ⟨[JsonRpcResponse.mkError id (-32603) "Tool handler disconnected"],
           [ev], pendingRemove afterInsert request_id⟩
        | .timedOut =>
          ⟨[JsonRpcResponse.mkError id (-32603) "Tool response timeout"],
           [ev], pendingRemove afterInsert request_id⟩
      | none =>
        ⟨[JsonRpcResponse.mkError id (-32602) "Missing params"], [], pending⟩
    else
      match req.id with
      | some _ =>
        ⟨[JsonRpcResponse.mkError id (-32601) ("Method not found: " ++ req.method)],
         [], pending⟩
      | none => ⟨[], [], pending⟩

/-- `claude_code_respond` (src/src-tauri/src/commands/claude_code.rs:8-21):
looks up and removes the pending entry; when present, sends `result` into the
one-shot slot; when absent, returns the lookup error.  Returns the new table,
the command's `Result`, and the (zero or one) completions delivered. -/
def claude_code_respond (pending : PendingTable) (request_id : String) (result : Json) :
    PendingTable × Except String Unit × List (String × Json) :=
  if List.contains pending request_id then
    (pendingRemove pending request_id, Except.ok (), [(request_id, result)])
  else
    (pending, Except.error ("No pending request with id: " ++ request_id), [])

/-- Sequential application of `claude_code_respond` for a list of
(request_id, result) operations, accumulating all delivered completions. -/
def runResponds (pending : PendingTable) (ops : List (String × Json)) :
    PendingTable × List (String × Json) :=
  match ops with
  | [] => (pending, [])
  | (rid, res) :: rest =>
    let step := claude_code_respond pending rid res
    let tail := runResponds step.1 rest
    (tail.1, step.2.2 ++ tail.2)

/-! ## Discovery registry (src/src-tauri/src/claude_code/lockfile.rs) -/

/-- What reading and parsing one file yields: `fs::read_to_string` may fail
(`unreadable`), and `serde_json::from_str::<Value>` may fail (`unparsable`);
both library calls are treated as oracles. -/
inductive FileContent where
  | unreadable
  | unparsable
  | json (v : Json)
deriving Repr

/-- One entry of the `~/.claude/ide` directory: its `Path::extension()` and
its content. -/
structure DirEntry where
  ext : Option String
  content : FileContent
deriving Repr

/-- The per-file survival test of the `cleanup_stale_lockfiles` loop
(src/src-tauri/src/claude_code/lockfile.rs:132-152): non-`.lock` files and
unreadable files are skipped (kept); unparsable `.lock` files are removed;
parsed `.lock` files with a u64 `pid` are removed exactly when
`libc::kill(pid, 0)` says the process is dead (`alive` is the liveness
oracle); parsed `.lock` files without a u64 `pid` are kept. -/
def keepLockfile (alive : Nat → Bool) (f : DirEntry) : Bool :=
  if ¬ f.ext = some "lock" then true
  else match f.content with
    | .unreadable => true
    | .unparsable => false
    | .json v =>
      match (v.get "pid").bind Json.asU64 with
      | some pid => alive pid
      | none => true

/-- `cleanup_stale_lockfiles` (src/src-tauri/src/claude_code/lockfile.rs:128-153):
the loop deletes exactly the entries failing `keepLockfile`, so the directory
afterwards is the filter of the directory before. -/
def cleanup_stale_lockfiles (alive : Nat → Bool) (dir : List DirEntry) : List DirEntry :=
  dir.filter (keepLockfile alive)

/-- `MCP_SERVER_KEY`. -/
def MCP_SERVER_KEY : String := "aiterm"

/-- Insert-or-replace of a key in a JSON object's field list
(`serde_json::Map::insert`; ordering caveat: serde_json's map is sorted,
ours keeps insertion order — the settings claims are stated modulo key
ordering). -/
def objInsert (fields : List (String × Json)) (k : String) (v : Json) :
    List (String × Json) :=
  if fields.any (fun p => p.1 = k) then
    fields.map (fun p => if p.1 = k then (k, v) else p)
  else fields ++ [(k, v)]

/-- `serde_json::Map::remove` on a field list. -/
def objRemove (fields : List (String × Json)) (k : String) : List (String × Json) :=
  fields.filter (fun p => ¬ p.1 = k)

/-- State of `~/.claude.json` as seen by the registry code: missing,
unreadable, or present with a parse result (`none` = invalid JSON). -/
inductive Disk where
  | absent
  | unreadable
  | file (parsed : Option Json)
deriving Repr

/-- The `mcpServers.aiterm` entry written by `write_mcp_settings`. -/
def mcpEntry (port : Nat) (auth : String) : Json :=
  Json.obj [("type", Json.str "sse"),
            ("url", Json.str ("http://127.0.0.1:" ++ toString port ++ "/sse")),
            ("headers", Json.obj [("x-claude-code-ide-authorization", Json.str auth)])]

/-- `write_mcp_settings` (src/src-tauri/src/claude_code/lockfile.rs:58-93):
read-modify-atomic-write of `~/.claude.json`.  A missing or unparsable file
becomes `{}` (`unwrap_or(json!({}))`); a non-object document is an error; the
`entry("mcpServers").or_insert(json!({}))` plus `mcp_servers[KEY] = …` chain
inserts the entry, converting an existing `null` to an object and panicking
(modelled as an error) on any other non-object value.  Returns the document
written back. -/
def write_mcp_settings (port : Nat) (auth : String) (disk : Disk) : Except String Json :=
  match disk with
  | .unreadable => Except.error "Cannot read settings.json"
  | .absent => Except.ok (Json.obj [("mcpServers", Json.obj [(MCP_SERVER_KEY, mcpEntry port auth)])])
  | .file parsed =>
    let settings := parsed.getD (Json.obj [])
    match settings with
    | Json.obj fields =>
      match ((fields.find? (fun p => p.1 = "mcpServers")).map Prod.snd).getD (Json.obj []) with
      | Json.obj ms =>
        Except.ok (Json.obj (objInsert fields "mcpServers"
          (Json.obj (objInsert ms MCP_SERVER_KEY (mcpEntry port auth)))))
      | Json.null =>
        Except.ok (Json.obj (objInsert fields "mcpServers"
          (Json.obj [(MCP_SERVER_KEY, mcpEntry port auth)])))
      | _ => Except.error "panic: cannot index into non-object mcpServers value"
    | _ => Except.error "settings.json is not an object"

/-- `remove_mcp_settings` (src/src-tauri/src/claude_code/lockfile.rs:96-126):
no-op when the file is missing, when the document has no `mcpServers` object
(including an unparsable document, which `unwrap_or(json!({}))` turns into
`{}` — and then nothing is written back), or when `mcpServers` is not an
object.  Otherwise removes the `aiterm` key, drops `mcpServers` entirely if
now empty, and writes the document back.  Returns the resulting disk state. -/
def remove_mcp_settings (disk : Disk) : Except String Disk :=
  match disk with
  | .absent => Except.ok .absent
  | .unreadable => Except.error "Cannot read settings.json"
  | .file parsed =>
    let settings := parsed.getD (Json.obj [])
    match settings with
    | Json.obj fields =>
      match ((fields.find? (fun p => p.1 = "mcpServers")).map Prod.snd) with
      | some (Json.obj ms) =>
        let ms2 := objRemove ms MCP_SERVER_KEY
        let fields2 :=
          if ms2.isEmpty then objRemove fields "mcpServers"
          else objInsert fields "mcpServers" (Json.obj ms2)
        Except.ok (.file (some (Json.obj fields2)))
      | _ => Except.ok disk
    | _ => Except.ok disk

/-- `register` then `unregister` on the settings document: `write_mcp_settings`
followed by `remove_mcp_settings` on the document it wrote. -/
def registerThenUnregister (port : Nat) (auth : String) (disk : Disk) : Except String Disk :=
  (write_mcp_settings port auth disk).bind (fun doc => remove_mcp_settings (.file (some doc)))

/-! ## Session/transport layer (src/src-tauri/src/claude_code/server.rs,
handlers and connection state) and the notification target
(src/src-tauri/src/commands/claude_code.rs, `claude_code_notify_selection`). -/

/-- Identity of the channel held by the `claude_code_notify_tx` slot: the
WebSocket connection's `response_tx` or the bridge channel of an SSE session. -/
inductive NotifyTarget where
  | ws (sid : Nat)
  | sse (session_id : String)
deriving Repr, DecidableEq

/-- The process-wide mutable connection state: the SSE session registry
(`sse_sessions`, keys only), the shared `claude_code_connected` flag, the
single `claude_code_notify_tx` slot, and the `claude-code-connection` event
payloads emitted so far (via `set_connected`). -/
structure BridgeState where
  sse_sessions : List String
  connected : Bool
  notify_target : Option NotifyTarget
  connectivity_events : List Bool
deriving Repr

/-- `set_connected` (src/src-tauri/src/claude_code/server.rs:126-132): writes
the flag and emits one `claude-code-connection` event. -/
def set_connected (st : BridgeState) (c : Bool) : BridgeState :=
  { st with connected := c, connectivity_events := st.connectivity_events ++ [c] }

/-- HTTP-level result of a handler. -/
inductive HandlerStatus where
  | unauthorized
  | switchingProtocols
  | ok
  | notFound
  | sseStream (session_id : String)
deriving Repr, DecidableEq

/-- Numeric status code of a handler result. -/
def HandlerStatus.code : HandlerStatus → Nat
  | .unauthorized => 401
  | .switchingProtocols => 101
  | .ok => 200
  | .notFound => 404
  | .sseStream _ => 200

/-- `headers.get(name).and_then(|v| v.to_str().ok())`: header values are
modelled as strings (a value failing `to_str` can be modelled by a missing
header, both yielding `""` after `unwrap_or`). -/
def headerValue (headers : List (String × String)) (name : String) : Option String :=
  (headers.find? (fun p => p.1 = name)).map Prod.snd

/-- The auth string extracted by all three handlers:
`headers.get("x-claude-code-ide-authorization")…unwrap_or("")`. -/
def authHeaderValue (headers : List (String × String)) : String :=
  (headerValue headers "x-claude-code-ide-authorization").getD ""

/-- `ws_upgrade_handler` (src/src-tauri/src/claude_code/server.rs:136-153):
auth mismatch ⇒ 401 and nothing else happens; otherwise the upgrade is
accepted (the session itself starts in `handle_ws_connection`). -/
def ws_upgrade_handler (headers : List (String × String)) (expected_auth : String)
    (st : BridgeState) : HandlerStatus × BridgeState :=
  if ¬ authHeaderValue headers = expected_auth then (.unauthorized, st)
  else (.switchingProtocols, st)

/-- Session-establishment prefix of `handle_ws_connection`
(src/src-tauri/src/claude_code/server.rs:155-161): `set_connected(true)`,
then install this connection's `response_tx` as the notification target. -/
def ws_establish (sid : Nat) (st : BridgeState) : BridgeState :=
  let st1 := set_connected st true
  { st1 with notify_target := some (.ws sid) }

/-- Cleanup suffix of `handle_ws_connection`
(src/src-tauri/src/claude_code/server.rs:203-204): unconditionally
`set_connected(false)` and clear the notification slot — whichever session
currently owns the slot. -/
def ws_teardown (st : BridgeState) : BridgeState :=
  let st1 := set_connected st false
  { st1 with notify_target := none }

/-- State effect of a successful `sse_get_handler`
(src/src-tauri/src/claude_code/server.rs:221-236): register the fresh
session, install its bridge channel as the notification target,
`set_connected(true)`. -/
def sse_establish (session_id : String) (st : BridgeState) : BridgeState :=
  let st1 := { st with sse_sessions := pendingInsert st.sse_sessions session_id }
  let st2 := { st1 with notify_target := some (.sse session_id) }
  set_connected st2 true

/-- `sse_get_handler` (src/src-tauri/src/claude_code/server.rs:210-284):
auth mismatch ⇒ 401, nothing recorded; otherwise establish the session and
answer with the event stream.  `session_id` stands for the fresh uuid. -/
def sse_get_handler (headers : List (String × String)) (expected_auth : String)
    (session_id : String) (st : BridgeState) : HandlerStatus × BridgeState :=
  if ¬ authHeaderValue headers = expected_auth then (.unauthorized, st)
  else (.sseStream session_id, sse_establish session_id st)

/-- Cleanup performed by the SSE watchdog task when it detects the dropped
stream (src/src-tauri/src/claude_code/server.rs:271-273): remove the session,
unconditionally `set_connected(false)` and clear the notification slot. -/
def sse_teardown (session_id : String) (st : BridgeState) : BridgeState :=
  let st1 := { st with sse_sessions := pendingRemove st.sse_sessions session_id }
  let st2 := set_connected st1 false
  { st2 with notify_target := none }

/-- `sse_message_handler` (src/src-tauri/src/claude_code/server.rs:292-314):
auth mismatch ⇒ 401; unknown session ⇒ 404; otherwise the body is dispatched
through `handle_message` exactly as on the WebSocket path, replies going to
the session's queue.  Returns status, the (unchanged) connection state, and
the dispatch result. -/
def sse_message_handler (headers : List (String × String)) (expected_auth : String)
    (session_id : String) (body : Option JsonRpcRequest)
    (appName appVersion request_id : String) (outcome : CallOutcome)
    (st : BridgeState) (pending : PendingTable) :
    HandlerStatus × BridgeState × DispatchResult :=
  if ¬ authHeaderValue headers = expected_auth then
    (.unauthorized, st, ⟨[], [], pending⟩)
  else if ¬ List.contains st.sse_sessions session_id then
    (.notFound, st, ⟨[], [], pending⟩)
  else
    (.ok, st, handle_message body appName appVersion request_id outcome pending)

/-- `claude_code_notify_selection` (src/src-tauri/src/commands/claude_code.rs:24-37):
serialise the payload and send it through the current notification slot; with
no client connected, silently succeed.  Returns the command result and the
delivery made (target, raw JSON), if any. -/
def claude_code_notify_selection (st : BridgeState) (payload : Json) :
    Except String Unit × Option (NotifyTarget × String) :=
  match st.notify_target with
  | some t => (Except.ok (), some (t, Json.serialize payload))
  | none => (Except.ok (), none)

/-- Session lifecycle events, for trace-level statements about the slot. -/
inductive SessionEvent where
  | wsConnect (sid : Nat)
  | wsDisconnect
  | sseConnect (session_id : String)
  | sseDisconnect (session_id : String)
deriving Repr

/-- One lifecycle step. -/
def stepSession (st : BridgeState) : SessionEvent → BridgeState
  | .wsConnect sid => ws_establish sid st
  | .wsDisconnect => ws_teardown st
  | .sseConnect session_id => sse_establish session_id st
  | .sseDisconnect session_id => sse_teardown session_id st

/-- A whole trace of lifecycle events. -/
def runSession (st : BridgeState) (evs : List SessionEvent) : BridgeState :=
  evs.foldl stepSession st

/-- `pid` recorded by a parsed lock file, if any (`data.get("pid").and_then(as_u64)`). -/
def lockPid (f : DirEntry) : Option Nat :=
  match f.content with
  | .json v => (v.get "pid").bind Json.asU64
  | _ => none

/-! ## Theorems -/

/-- A key is never a member of the table it was just removed from. -/
theorem not_mem_pendingRemove (t : PendingTable) (k : String) :
    ¬ k ∈ pendingRemove t k := by
  simp [pendingRemove]

/-- `claude_code_respond` never adds table keys. -/
theorem mem_respond_table (p : PendingTable) (rid : String) (r : Json) (x : String)
    (hx : x ∈ (claude_code_respond p rid r).1) : x ∈ p := by
  unfold claude_code_respond at hx
  split at hx
  · exact (List.mem_filter.mp hx).1
  · exact hx

/-- After any `claude_code_respond` for `rid`, `rid` is absent from the table. -/
theorem respond_removes (p : PendingTable) (rid : String) (r : Json) :
    ¬ rid ∈ (claude_code_respond p rid r).1 := by
  unfold claude_code_respond
  split
  · exact not_mem_pendingRemove p rid
  · rename_i h
    simpa using h

/-- C1 (counterexample).  The claim says a notification (no id) never gets a
response; but `handle_message` answers the method match for `initialize`
(likewise `tools/list` and `tools/call`) regardless of whether an id was
present, so the notification `{"method":"initialize"}` produces one response
(with id `null`). -/
theorem c1_notification_reply_counterexample :
    (handle_message (some ⟨none, "initialize", none⟩) "aiTerm" "0.1.0" "rid"
      CallOutcome.timedOut []).responses.length = 1 := rfl

/-- C1 (amended).  Malformed JSON produces zero responses.  A request with an
id produces exactly one response carrying that id — except for the method
`"notifications/initialized"`, which never gets a reply even when an id is
present.  A request without an id produces zero responses — except for the
methods `"initialize"`, `"tools/list"` and `"tools/call"`, which reply even
to notifications, with id `null`. -/
theorem c1_reply_discipline (inbound : Option JsonRpcRequest)
    (appName appVersion request_id : String) (outcome : CallOutcome)
    (pending : PendingTable) :
    (inbound = none →
      (handle_message inbound appName appVersion request_id outcome pending).responses = []) ∧
    (∀ req, inbound = some req →
      (∀ v, req.id = some v →
        (¬ req.method = "notifications/initialized" →
          (handle_message inbound appName appVersion request_id outcome
            pending).responses.map JsonRpcResponse.id = [v]) ∧
        (req.method = "notifications/initialized" →
          (handle_message inbound appName appVersion request_id outcome
            pending).responses = [])) ∧
      (req.id = none →
        ((req.method = "initialize" ∨ req.method = "tools/list" ∨ req.method = "tools/call") →
          (handle_message inbound appName appVersion request_id outcome
            pending).responses.map JsonRpcResponse.id = [Json.null]) ∧
        (¬ (req.method = "initialize" ∨ req.method = "tools/list" ∨ req.method = "tools/call") →
          (handle_message inbound appName appVersion request_id outcome
            pending).responses = []))) := by
  constructor
  · rintro rfl
    rfl
  · rintro ⟨rid, m, ps⟩ rfl
    constructor
    · rintro v rfl
      constructor
      · intro hm
        simp only [handle_message, Option.getD_some]
        split_ifs with h1 h2 h3
        · rfl
        · rfl
        · cases ps with
          | none => rfl
          | some params => cases outcome <;> rfl
        · rfl
      · intro hm
        simp only at hm
        subst hm
        rfl
    · rintro rfl
      constructor
      · intro hm
        rcases hm with h | h | h <;> simp only at h <;> subst h
        · rfl
        · rfl
        · cases ps with
          | none => rfl
          | some params => cases outcome <;> rfl
      · intro hm
        push_neg at hm
        simp only at hm
        obtain ⟨h1, h2, h3⟩ := hm
        simp only [handle_message]
        split_ifs with g1
        all_goals simp_all

/-- C1 witness: a `tools/list` request with id 1 gets exactly one reply,
carrying id 1. -/
theorem c1_reply_discipline_witness :
    (handle_message (some ⟨some (Json.num 1), "tools/list", none⟩) "aiTerm" "0.1.0" "r"
      CallOutcome.timedOut []).responses.map JsonRpcResponse.id = [Json.num 1] :=
  (((c1_reply_discipline (some ⟨some (Json.num 1), "tools/list", none⟩) "aiTerm" "0.1.0" "r"
      CallOutcome.timedOut []).2 ⟨some (Json.num 1), "tools/list", none⟩ rfl).1
      (Json.num 1) rfl).1 (by decide)

/-- C2 (confirmed).  A `tools/call` request with a params object gets exactly
one reply, decided by the three-way race: a value on the one-shot slot within
the 120-second timeout yields a success response wrapping the serialized
result; a dropped completion channel yields the internal error
"Tool handler disconnected" with the pending entry removed; an elapsed
timeout yields the internal error "Tool response timeout" with the pending
entry removed. -/
theorem c2_tools_call_race (req : JsonRpcRequest) (params : Json)
    (appName appVersion request_id : String) (outcome : CallOutcome)
    (pending : PendingTable)
    (hm : req.method = "tools/call") (hp : req.params = some params) :
    (handle_message (some req) appName appVersion request_id outcome
      pending).responses.length = 1 ∧
    (∀ result, outcome = CallOutcome.resolved result →
      (handle_message (some req) appName appVersion request_id outcome pending).responses =
        [JsonRpcResponse.success (req.id.getD Json.null)
          (Json.obj [("content", Json.arr [Json.obj
            [("type", Json.str "text"),
             ("text", Json.str (Json.serialize result))]])])]) ∧
    (outcome = CallOutcome.disconnected →
      (handle_message (some req) appName appVersion request_id outcome pending).responses =
        [JsonRpcResponse.mkError (req.id.getD Json.null) (-32603) "Tool handler disconnected"] ∧
      ¬ request_id ∈ (handle_message (some req) appName appVersion request_id outcome
        pending).pending) ∧
    (outcome = CallOutcome.timedOut →
      (handle_message (some req) appName appVersion request_id outcome pending).responses =
        [JsonRpcResponse.mkError (req.id.getD Json.null) (-32603) "Tool response timeout"] ∧
      ¬ request_id ∈ (handle_message (some req) appName appVersion request_id outcome
        pending).pending) ∧
    RESPONSE_TIMEOUT_SECS = 120 := by
  obtain ⟨rid, m, ps⟩ := req
  simp only at hm hp
  subst hm
  subst hp
  refine ⟨?_, ?_, ?_, ?_, rfl⟩
  · cases outcome <;> rfl
  · rintro result rfl
    rfl
  · rintro rfl
    exact ⟨rfl, not_mem_pendingRemove _ _⟩
  · rintro rfl
    exact ⟨rfl, not_mem_pendingRemove _ _⟩

/-- C2 witness: a concrete timed-out `tools/call` (id 7, empty params object,
table previously holding the call id) gets exactly the timeout error and the
call id is gone from the table. -/
theorem c2_tools_call_race_witness :
    (handle_message (some ⟨some (Json.num 7), "tools/call", some (Json.obj [])⟩)
      "aiTerm" "0.1.0" "call-1" CallOutcome.timedOut ["call-1"]).responses =
      [JsonRpcResponse.mkError (Json.num 7) (-32603) "Tool response timeout"] ∧
    ¬ "call-1" ∈ (handle_message (some ⟨some (Json.num 7), "tools/call", some (Json.obj [])⟩)
      "aiTerm" "0.1.0" "call-1" CallOutcome.timedOut ["call-1"]).pending :=
  (c2_tools_call_race ⟨some (Json.num 7), "tools/call", some (Json.obj [])⟩ (Json.obj [])
    "aiTerm" "0.1.0" "call-1" CallOutcome.timedOut ["call-1"] rfl rfl).2.2.2.1 rfl

/-- C8 (confirmed).  A `tools/call` request without params is answered at once
with the JSON-RPC invalid-params error (code -32602, "Missing params"): no
tool-invocation event is emitted and the pending table is untouched. -/
theorem c8_missing_params (req : JsonRpcRequest)
    (appName appVersion request_id : String) (outcome : CallOutcome)
    (pending : PendingTable)
    (hm : req.method = "tools/call") (hp : req.params = none) :
    handle_message (some req) appName appVersion request_id outcome pending =
      ⟨[JsonRpcResponse.mkError (req.id.getD Json.null) (-32602) "Missing params"],
       [], pending⟩ := by
  obtain ⟨rid, m, ps⟩ := req
  simp only at hm hp
  subst hm
  subst hp
  rfl

/-- C8 witness: the concrete paramless `tools/call` with id 3. -/
theorem c8_missing_params_witness :
    handle_message (some ⟨some (Json.num 3), "tools/call", none⟩) "aiTerm" "0.1.0" "r"
      CallOutcome.timedOut ["x"] =
      ⟨[JsonRpcResponse.mkError (Json.num 3) (-32602) "Missing params"], [], ["x"]⟩ :=
  c8_missing_params ⟨some (Json.num 3), "tools/call", none⟩ "aiTerm" "0.1.0" "r"
    CallOutcome.timedOut ["x"] rfl rfl

/-- C9 (confirmed).  A `tools/call` whose params lack a string `name`, or name
a tool outside the advertised catalog, is not rejected: the dispatcher
forwards the (possibly empty) name unvalidated in the tool-invocation event,
registers the pending call (present in the final table in the resolved case,
inserted then removed in the other two), still produces exactly one reply,
and that reply is never a -32602 invalid-params or -32601 method-not-found
error. -/
theorem c9_unvalidated_tool_name (req : JsonRpcRequest) (params : Json)
    (appName appVersion request_id : String) (outcome : CallOutcome)
    (pending : PendingTable)
    (hm : req.method = "tools/call") (hp : req.params = some params)
    (hname : ((params.get "name").bind Json.asStr) = none ∨
      ∃ s, ((params.get "name").bind Json.asStr) = some s ∧ ¬ s ∈ advertisedToolNames) :
    (handle_message (some req) appName appVersion request_id outcome pending).events =
      [⟨request_id, ((params.get "name").bind Json.asStr).getD "",
        ((params.get "arguments")).getD (Json.obj [])⟩] ∧
    (handle_message (some req) appName appVersion request_id outcome
      pending).responses.length = 1 ∧
    (∀ resp, resp ∈ (handle_message (some req) appName appVersion request_id outcome
        pending).responses → ∀ e, resp.error = some e →
      ¬ e.code = -32602 ∧ ¬ e.code = -32601) ∧
    (handle_message (some req) appName appVersion request_id outcome pending).pending =
      (match outcome with
       | CallOutcome.resolved _ => pendingInsert pending request_id
       | _ => pendingRemove (pendingInsert pending request_id) request_id) := by
  clear hname
  obtain ⟨rid, m, ps⟩ := req
  simp only at hm hp
  subst hm
  subst hp
  refine ⟨?_, ?_, ?_, ?_⟩
  · cases outcome <;> rfl
  · cases outcome <;> rfl
  · intro resp hresp e he
    cases outcome with
    | resolved result =>
      simp [handle_message] at hresp
      subst hresp
      simp [JsonRpcResponse.success] at he
    | disconnected =>
      simp [handle_message] at hresp
      subst hresp
      simp [JsonRpcResponse.mkError] at he
      subst he
      exact ⟨by decide, by decide⟩
    | timedOut =>
      simp [handle_message] at hresp
      subst hresp
      simp [JsonRpcResponse.mkError] at he
      subst he
      exact ⟨by decide, by decide⟩
  · cases outcome <;> rfl

/-- C9 witness: `tools/call` with params `{}` (no name at all): the event
carries the empty tool name and the timed-out call is answered with the
timeout error, not a validation error. -/
theorem c9_unvalidated_tool_name_witness :
    (handle_message (some ⟨some (Json.num 2), "tools/call", some (Json.obj [])⟩)
      "aiTerm" "0.1.0" "c9" CallOutcome.timedOut []).events =
      [⟨"c9", "", Json.obj []⟩] ∧
    (handle_message (some ⟨some (Json.num 2), "tools/call", some (Json.obj [])⟩)
      "aiTerm" "0.1.0" "c9" CallOutcome.timedOut []).responses.length = 1 :=
  let h := c9_unvalidated_tool_name ⟨some (Json.num 2), "tools/call", some (Json.obj [])⟩
    (Json.obj []) "aiTerm" "0.1.0" "c9" CallOutcome.timedOut [] rfl rfl (Or.inl rfl)
  ⟨h.1, h.2.1⟩

/-- Resolving an absent call id fails with the lookup error and changes nothing. -/
theorem respond_absent (p : PendingTable) (rid : String) (r : Json) (h : ¬ rid ∈ p) :
    claude_code_respond p rid r =
      (p, Except.error ("No pending request with id: " ++ rid), []) := by
  unfold claude_code_respond
  rw [if_neg (by simpa using h)]

/-- A key absent from the table never receives a delivery over any sequence of
resolve calls (`claude_code_respond` never inserts keys). -/
theorem runResponds_no_delivery (ops : List (String × Json)) (pending : PendingTable)
    (c : String) (hc : ¬ c ∈ pending) :
    (runResponds pending ops).2.filter (fun d => d.1 = c) = [] := by
  induction ops generalizing pending with
  | nil => rfl
  | cons op rest ih =>
    obtain ⟨rid, res⟩ := op
    simp only [runResponds, List.filter_append, List.append_eq_nil]
    refine ⟨?_, ih _ (fun hmem => hc (mem_respond_table _ _ _ _ hmem))⟩
    by_cases h : rid = c
    · subst h
      rw [respond_absent pending rid res hc]
      rfl
    · unfold claude_code_respond
      split <;> simp [h]

/-- Over any sequence of resolve calls, each call id receives at most one
completion delivery. -/
theorem runResponds_deliveries_le_one (ops : List (String × Json))
    (pending : PendingTable) (c : String) :
    ((runResponds pending ops).2.filter (fun d => d.1 = c)).length ≤ 1 := by
  induction ops generalizing pending with
  | nil => simp [runResponds]
  | cons op rest ih =>
    obtain ⟨rid, res⟩ := op
    simp only [runResponds, List.filter_append, List.length_append]
    by_cases h : rid = c
    · subst h
      by_cases hm : rid ∈ pending
      · have htail : ((runResponds (claude_code_respond pending rid res).1 rest).2.filter
            (fun d => d.1 = rid)).length = 0 := by
          rw [runResponds_no_delivery rest _ rid (respond_removes pending rid res)]
          rfl
        have hstep : ((claude_code_respond pending rid res).2.2.filter
            (fun d => d.1 = rid)).length ≤ 1 := by
          unfold claude_code_respond
          split <;> simp
        omega
      · rw [respond_absent pending rid res hm]
        have htail := ih (claude_code_respond pending rid res).1
        rw [respond_absent pending rid res hm] at htail
        simpa using htail
    · have hstep : ((claude_code_respond pending rid res).2.2.filter
          (fun d => d.1 = c)).length = 0 := by
        unfold claude_code_respond
        split <;> simp [h]
      have htail := ih (claude_code_respond pending rid res).1
      omega

/-- C3 (confirmed).  `claude_code_respond` removes the table entry before
sending, so: a second resolve for the same call id always finds no entry,
returns the "No pending request" lookup error, leaves the table unchanged
and delivers nothing; resolving a never-created (or timed-out-and-removed)
call id behaves the same; and over any sequence of resolve calls at most one
completion value is ever delivered to a given call id's one-shot slot — so a
stale resolve never causes a second reply on the wire. -/
theorem c3_at_most_one_completion :
    (∀ pending rid r1 r2,
      claude_code_respond (claude_code_respond pending rid r1).1 rid r2 =
        ((claude_code_respond pending rid r1).1,
         Except.error ("No pending request with id: " ++ rid), [])) ∧
    (∀ pending rid r, ¬ rid ∈ pending →
      claude_code_respond pending rid r =
        (pending, Except.error ("No pending request with id: " ++ rid), [])) ∧
    (∀ pending ops c,
      ((runResponds pending ops).2.filter (fun d => d.1 = c)).length ≤ 1) :=
  ⟨fun pending rid r1 r2 =>
      respond_absent (claude_code_respond pending rid r1).1 rid r2
        (respond_removes pending rid r1),
   fun pending rid r h => respond_absent pending rid r h,
   fun pending ops c => runResponds_deliveries_le_one ops pending c⟩

/-- C3 witness: resolving id "b" against a table holding only "a" errors and
leaves the table unchanged; resolving "a" twice delivers once then errors. -/
theorem c3_at_most_one_completion_witness :
    claude_code_respond ["a"] "b" Json.null =
      (["a"], Except.error ("No pending request with id: " ++ "b"), []) ∧
    claude_code_respond (claude_code_respond ["a"] "a" Json.null).1 "a" Json.null =
      ((claude_code_respond ["a"] "a" Json.null).1,
       Except.error ("No pending request with id: " ++ "a"), []) :=
  ⟨c3_at_most_one_completion.2.1 ["a"] "b" Json.null (by decide),
   c3_at_most_one_completion.1 ["a"] "a" Json.null Json.null⟩

/-- C4 (confirmed).  On all three endpoints — WebSocket upgrade, SSE GET and
the side-channel POST — a request whose `x-claude-code-ide-authorization`
header does not match the expected token is answered 401 with the state left
exactly as it was: no session recorded, no notification-target change, and no
connectivity-changed event emitted. -/
theorem c4_auth_rejection (headers : List (String × String)) (expected_auth : String)
    (st : BridgeState) (session_id : String) (body : Option JsonRpcRequest)
    (appName appVersion request_id : String) (outcome : CallOutcome)
    (pending : PendingTable)
    (h : ¬ authHeaderValue headers = expected_auth) :
    ws_upgrade_handler headers expected_auth st = (HandlerStatus.unauthorized, st) ∧
    sse_get_handler headers expected_auth session_id st = (HandlerStatus.unauthorized, st) ∧
    sse_message_handler headers expected_auth session_id body appName appVersion
      request_id outcome st pending =
      (HandlerStatus.unauthorized, st, ⟨[], [], pending⟩) ∧
    HandlerStatus.unauthorized.code = 401 := by
  refine ⟨?_, ?_, ?_, rfl⟩
  · unfold ws_upgrade_handler
    rw [if_pos h]
  · unfold sse_get_handler
    rw [if_pos h]
  · unfold sse_message_handler
    rw [if_pos h]

/-- C4 witness: a request with no auth header at all against expected token
"secret" is rejected on each endpoint with state untouched. -/
theorem c4_auth_rejection_witness :
    ws_upgrade_handler [] "secret" ⟨[], false, none, []⟩ =
      (HandlerStatus.unauthorized, ⟨[], false, none, []⟩) ∧
    sse_get_handler [] "secret" "s1" ⟨[], false, none, []⟩ =
      (HandlerStatus.unauthorized, ⟨[], false, none, []⟩) :=
  let h := c4_auth_rejection [] "secret" ⟨[], false, none, []⟩ "s1" none
    "aiTerm" "0.1.0" "r" CallOutcome.timedOut [] (by decide)
  ⟨h.1, h.2.1⟩

/-- C6 (confirmed).  The notification target is one overwritable
`Option`-valued slot: establishing a session on either transport overwrites
it with that session's outbound channel — regardless of any earlier value,
including at the end of an arbitrary lifecycle trace — and an unsolicited
push (`claude_code_notify_selection`) is delivered exactly to the channel
currently in the slot, i.e. the most recently established session's. -/
theorem c6_single_notification_target (st : BridgeState) :
    (∀ sid, (ws_establish sid st).notify_target = some (NotifyTarget.ws sid)) ∧
    (∀ session_id, (sse_establish session_id st).notify_target =
      some (NotifyTarget.sse session_id)) ∧
    (∀ evs sid, (runSession st (evs ++ [SessionEvent.wsConnect sid])).notify_target =
      some (NotifyTarget.ws sid)) ∧
    (∀ evs session_id,
      (runSession st (evs ++ [SessionEvent.sseConnect session_id])).notify_target =
      some (NotifyTarget.sse session_id)) ∧
    (∀ payload, (claude_code_notify_selection st payload).2 =
      st.notify_target.map (fun t => (t, Json.serialize payload))) := by
  refine ⟨fun _ => rfl, fun _ => rfl, ?_, ?_, ?_⟩
  · intro evs sid
    rw [runSession, List.foldl_append]
    rfl
  · intro evs session_id
    rw [runSession, List.foldl_append]
    rfl
  · intro payload
    unfold claude_code_notify_selection
    cases st.notify_target <;> rfl

/-- C10 (confirmed).  Any session teardown — the WebSocket loop's cleanup or
the SSE watchdog's — unconditionally empties the notification slot, sets the
shared connected flag to false and emits one `connected = false` event, for
every prior state, in particular when the slot meanwhile held a different,
still-live session's channel; after the teardown an unsolicited push is
silently dropped (command succeeds, nothing delivered). -/
theorem c10_teardown_clears_slot (st : BridgeState) (session_id : String) (payload : Json) :
    (ws_teardown st).notify_target = none ∧
    (ws_teardown st).connected = false ∧
    (ws_teardown st).connectivity_events = st.connectivity_events ++ [false] ∧
    (sse_teardown session_id st).notify_target = none ∧
    (sse_teardown session_id st).connected = false ∧
    (sse_teardown session_id st).connectivity_events = st.connectivity_events ++ [false] ∧
    claude_code_notify_selection (ws_teardown st) payload = (Except.ok (), none) ∧
    claude_code_notify_selection (sse_teardown session_id st) payload =
      (Except.ok (), none) :=
  ⟨rfl, rfl, rfl, rfl, rfl, rfl, rfl, rfl⟩

/-- For a lock file whose recorded pid was extracted, the survival test of the
sweep is exactly the liveness of that pid. -/
theorem keepLockfile_eq_alive (alive : Nat → Bool) (f : DirEntry) (pid : Nat)
    (hext : f.ext = some "lock") (hpid : lockPid f = some pid) :
    keepLockfile alive f = alive pid := by
  obtain ⟨e, c⟩ := f
  simp only at hext
  subst hext
  cases c with
  | unreadable => simp [lockPid] at hpid
  | unparsable => simp [lockPid] at hpid
  | json v =>
    simp only [lockPid] at hpid
    simp [keepLockfile, hpid]

/-- Counting lemma for the sweep: on a directory of parsed lock descriptors
with pids, the number of survivors is the total minus the dead. -/
theorem cleanup_count (alive : Nat → Bool) (dir : List DirEntry)
    (h : ∀ f, f ∈ dir → f.ext = some "lock" ∧ ∃ pid, lockPid f = some pid) :
    (cleanup_stale_lockfiles alive dir).length =
      dir.length -
        (dir.filter (fun f => (lockPid f).any (fun pid => ! alive pid))).length := by
  induction dir with
  | nil => rfl
  | cons f rest ih =>
    obtain ⟨hext, pid, hpid⟩ := h f (List.mem_cons_self f rest)
    have hrest := ih (fun g hg => h g (List.mem_cons_of_mem f hg))
    have hkeep := keepLockfile_eq_alive alive f pid hext hpid
    have hlen := List.length_filter_le
      (fun f => (lockPid f).any (fun pid => ! alive pid)) rest
    simp only [cleanup_stale_lockfiles] at hrest ⊢
    rw [List.filter_cons, List.filter_cons, hkeep, hpid]
    simp only [Option.any_some]
    by_cases halive : alive pid
    · rw [if_pos (by simp [halive]), if_neg (by simp [halive])]
      simp only [List.length_cons]
      omega
    · rw [if_neg (by simp [halive]), if_pos (by simp [halive])]
      simp only [List.length_cons]
      omega

/-- C5 (confirmed).  The startup sweep deletes exactly the `.lock` files with
unparsable content and the `.lock` files whose recorded pid is dead, leaves
every other entry untouched (in place and in order), and on a directory of N
parsed lock descriptors of which M record dead pids exactly N−M survive. -/
theorem c5_sweep (alive : Nat → Bool) (dir : List DirEntry) :
    (∀ f, f ∈ dir → f.ext = some "lock" → f.content = FileContent.unparsable →
      ¬ f ∈ cleanup_stale_lockfiles alive dir) ∧
    (∀ f, f ∈ dir → f.ext = some "lock" → ∀ pid, lockPid f = some pid →
      alive pid = false → ¬ f ∈ cleanup_stale_lockfiles alive dir) ∧
    (∀ f, f ∈ dir →
      (¬ f.ext = some "lock" ∨
       (¬ f.content = FileContent.unparsable ∧
        ∀ pid, lockPid f = some pid → alive pid = true)) →
      f ∈ cleanup_stale_lockfiles alive dir) ∧
    List.Sublist (cleanup_stale_lockfiles alive dir) dir ∧
    ((∀ f, f ∈ dir → f.ext = some "lock" ∧ ∃ pid, lockPid f = some pid) →
      (cleanup_stale_lockfiles alive dir).length =
        dir.length -
          (dir.filter (fun f => (lockPid f).any (fun pid => ! alive pid))).length) := by
  refine ⟨?_, ?_, ?_, List.filter_sublist _, cleanup_count alive dir⟩
  · intro f hf hext hcontent
    simp only [cleanup_stale_lockfiles, List.mem_filter]
    rintro ⟨-, hkeep⟩
    obtain ⟨e, c⟩ := f
    simp only at hext hcontent
    subst hext
    subst hcontent
    simp [keepLockfile] at hkeep
  · intro f hf hext pid hpid halive
    simp only [cleanup_stale_lockfiles, List.mem_filter]
    rintro ⟨-, hkeep⟩
    rw [keepLockfile_eq_alive alive f pid hext hpid] at hkeep
    rw [halive] at hkeep
    exact Bool.false_ne_true hkeep
  · intro f hf hcond
    simp only [cleanup_stale_lockfiles, List.mem_filter]
    refine ⟨hf, ?_⟩
    obtain ⟨e, c⟩ := f
    rcases hcond with h | ⟨h1, h2⟩
    · simp only at h
      unfold keepLockfile
      rw [if_pos (by simpa using h)]
    · unfold keepLockfile
      split_ifs with g
      · cases c with
        | unreadable => rfl
        | unparsable => exact absurd rfl h1
        | json v =>
          simp only
          cases hv : (v.get "pid").bind Json.asU64 with
          | none => rfl
          | some pid =>
            exact h2 pid (by simp only [lockPid, hv])
      · rfl

/-- C5 witness: two parsed lock descriptors (pids 1 and 2), liveness oracle
declaring only pid 1 alive: exactly 2 − 1 files survive the sweep, and the
dead one is gone while the live one stays. -/
theorem c5_sweep_witness :
    (cleanup_stale_lockfiles (fun pid => decide (pid = 1))
      [⟨some "lock", FileContent.json (Json.obj [("pid", Json.num 1)])⟩,
       ⟨some "lock", FileContent.json (Json.obj [("pid", Json.num 2)])⟩]).length = 2 - 1 ∧
    ¬ (⟨some "lock", FileContent.json (Json.obj [("pid", Json.num 2)])⟩ : DirEntry) ∈
      cleanup_stale_lockfiles (fun pid => decide (pid = 1))
      [⟨some "lock", FileContent.json (Json.obj [("pid", Json.num 1)])⟩,
       ⟨some "lock", FileContent.json (Json.obj [("pid", Json.num 2)])⟩] := by
  have h := c5_sweep (fun pid => decide (pid = 1))
    [⟨some "lock", FileContent.json (Json.obj [("pid", Json.num 1)])⟩,
     ⟨some "lock", FileContent.json (Json.obj [("pid", Json.num 2)])⟩]
  refine ⟨?_, ?_⟩
  · have hc := h.2.2.2.2 ?_
    · rw [hc]
      rfl
    · intro f hf
      simp only [List.mem_cons, List.not_mem_nil, or_false] at hf
      rcases hf with rfl | rfl
      · exact ⟨rfl, 1, rfl⟩
      · exact ⟨rfl, 2, rfl⟩
  · exact h.2.1 _ (by simp) rfl 2 rfl rfl

/-- Entries surviving `objRemove` never carry the removed key. -/
theorem objRemove_not_mem (fs : List (String × Json)) (k : String) :
    ∀ p, p ∈ objRemove fs k → ¬ p.1 = k := by
  intro p hp
  have h := List.mem_filter.mp hp
  simpa using h.2

/-- After removing a key it can no longer be found. -/
theorem find?_objRemove (fs : List (String × Json)) (k : String) :
    (objRemove fs k).find? (fun p => p.1 = k) = none := by
  rw [List.find?_eq_none]
  intro p hp
  simpa using objRemove_not_mem fs k p hp

/-- Removing an absent key is the identity. -/
theorem objRemove_eq_self (fs : List (String × Json)) (k : String)
    (h : ∀ p, p ∈ fs → ¬ p.1 = k) : objRemove fs k = fs := by
  rw [objRemove, List.filter_eq_self]
  intro p hp
  simpa using h p hp

/-- Removing a key twice equals removing it once. -/
theorem objRemove_idem (fs : List (String × Json)) (k : String) :
    objRemove (objRemove fs k) k = objRemove fs k :=
  objRemove_eq_self _ _ (objRemove_not_mem fs k)

/-- In-place replacement of a present key is found first. -/
theorem find?_map_replace (fs : List (String × Json)) (k : String) (v : Json)
    (h : fs.any (fun p => p.1 = k) = true) :
    (fs.map (fun p => if p.1 = k then (k, v) else p)).find? (fun p => p.1 = k) =
      some (k, v) := by
  induction fs with
  | nil => simp at h
  | cons q rest ih =>
    by_cases hq : q.1 = k
    · simp [List.find?_cons, hq]
    · have h2 : rest.any (fun p => p.1 = k) = true := by
        simp only [List.any_cons, Bool.or_eq_true] at h
        rcases h with h | h
        · exact absurd (by simpa using h) hq
        · exact h
      simp only [List.map_cons, if_neg hq, List.find?_cons]
      rw [show (decide (q.1 = k)) = false by simpa using hq]
      exact ih h2

/-- `find?` skips a prefix in which the predicate never holds. -/
theorem find?_append_of_none (fs gs : List (String × Json))
    (p : (String × Json) → Bool) (h : fs.find? p = none) :
    (fs ++ gs).find? p = gs.find? p := by
  induction fs with
  | nil => rfl
  | cons q rest ih =>
    simp only [List.find?_cons] at h
    simp only [List.cons_append, List.find?_cons]
    cases hq : p q with
    | true => rw [hq] at h; cases h
    | false =>
      rw [hq] at h
      exact ih h

/-- The binding just inserted by `objInsert` is the one found. -/
theorem find?_objInsert (fs : List (String × Json)) (k : String) (v : Json) :
    (objInsert fs k v).find? (fun p => p.1 = k) = some (k, v) := by
  unfold objInsert
  split_ifs with h
  · exact find?_map_replace fs k v h
  · have hnone : fs.find? (fun p => p.1 = k) = none := by
      rw [List.find?_eq_none]
      intro q hq hqk
      exact h (List.any_eq_true.mpr ⟨q, hq, hqk⟩)
    rw [find?_append_of_none fs _ _ hnone]
    simp [List.find?_cons]

/-- Every entry of `objInsert fs k v` carrying key `k` is the inserted one. -/
theorem objInsert_key_entries (fs : List (String × Json)) (k : String) (v : Json) :
    ∀ p, p ∈ objInsert fs k v → p.1 = k → p = (k, v) := by
  intro p hp hpk
  unfold objInsert at hp
  split_ifs at hp with h
  · rcases List.mem_map.mp hp with ⟨q, hq, rfl⟩
    by_cases hqk : q.1 = k
    · rw [if_pos hqk]
    · rw [if_neg hqk] at hpk ⊢
      exact absurd hpk hqk
  · rcases List.mem_append.mp hp with h1 | h1
    · exact absurd (List.any_eq_true.mpr ⟨p, h1, by simpa using hpk⟩) h
    · simpa using h1

/-- Replacing a key by a value every key-`k` entry already equals is the identity. -/
theorem map_replace_eq_self (l : List (String × Json)) (k : String) (v : Json)
    (h : ∀ p, p ∈ l → p.1 = k → p = (k, v)) :
    l.map (fun p => if p.1 = k then (k, v) else p) = l := by
  induction l with
  | nil => rfl
  | cons q rest ih =>
    simp only [List.map_cons]
    rw [ih (fun p hp hpk => h p (List.mem_cons_of_mem q hp) hpk)]
    by_cases hq : q.1 = k
    · rw [if_pos hq, ← h q (List.mem_cons_self q rest) hq]
    · rw [if_neg hq]

/-- Re-inserting the same binding is the identity. -/
theorem objInsert_idem (fs : List (String × Json)) (k : String) (v : Json) :
    objInsert (objInsert fs k v) k v = objInsert fs k v := by
  have hany : (objInsert fs k v).any (fun p => p.1 = k) = true :=
    List.any_eq_true.mpr ⟨(k, v), List.mem_of_find?_eq_some (find?_objInsert fs k v),
      by simp⟩
  conv_lhs => rw [objInsert]
  rw [if_pos hany]
  exact map_replace_eq_self _ k v (objInsert_key_entries fs k v)

/-- C7 (counterexample).  If the document already held an empty `mcpServers`
object before `register`, the `aiterm` entry is afterwards the only
`mcpServers` entry, yet `register; unregister` deletes the whole `mcpServers`
key and does not restore the pre-register content. -/
theorem c7_roundtrip_counterexample :
    registerThenUnregister 1234 "tok"
      (Disk.file (some (Json.obj [("mcpServers", Json.obj [])]))) =
      Except.ok (Disk.file (some (Json.obj []))) ∧
    ¬ (Json.obj ([] : List (String × Json)) = Json.obj [("mcpServers", Json.obj [])]) :=
  ⟨rfl, by simp⟩

/-- C7 (amended).  `register` followed immediately by `unregister` restores
the settings document exactly when the document had no `mcpServers` key
before `register` (then `aiterm` ends up the only entry and the emptied
parent object is deleted again); with a pre-existing empty `mcpServers`
object the parent key is deleted rather than restored.  `unregister` is
idempotent and safe with nothing registered: it is a no-op on a missing file
and on a document without an `mcpServers` key, and applying it to its own
output changes nothing. -/
theorem c7_register_unregister (port : Nat) (auth : String) :
    (∀ fields, (∀ p, p ∈ fields → ¬ p.1 = "mcpServers") →
      registerThenUnregister port auth (Disk.file (some (Json.obj fields))) =
        Except.ok (Disk.file (some (Json.obj fields)))) ∧
    remove_mcp_settings Disk.absent = Except.ok Disk.absent ∧
    (∀ fields, fields.find? (fun p => p.1 = "mcpServers") = none →
      remove_mcp_settings (Disk.file (some (Json.obj fields))) =
        Except.ok (Disk.file (some (Json.obj fields)))) ∧
    (∀ d d2, remove_mcp_settings d = Except.ok d2 →
      remove_mcp_settings d2 = Except.ok d2) := by
  have hnoop : ∀ fields, List.find? (fun p => p.1 = "mcpServers") fields = none →
      remove_mcp_settings (Disk.file (some (Json.obj fields))) =
        Except.ok (Disk.file (some (Json.obj fields))) := by
    intro fields hfind
    unfold remove_mcp_settings
    simp only [Option.getD_some, hfind, Option.map_none']
  refine ⟨?_, rfl, hnoop, ?_⟩
  · intro fields hf
    have hfindN : fields.find? (fun p => p.1 = "mcpServers") = none := by
      rw [List.find?_eq_none]
      intro p hp
      simpa using hf p hp
    have hanyF : ¬ fields.any (fun p => p.1 = "mcpServers") = true := by
      intro hc
      rcases List.any_eq_true.mp hc with ⟨p, hp, hpk⟩
      exact hf p hp (by simpa using hpk)
    have hins : objInsert fields "mcpServers"
        (Json.obj (objInsert [] MCP_SERVER_KEY (mcpEntry port auth))) =
        fields ++ [("mcpServers", Json.obj [(MCP_SERVER_KEY, mcpEntry port auth)])] := by
      unfold objInsert
      rw [if_neg hanyF]
      rfl
    have hw : write_mcp_settings port auth (Disk.file (some (Json.obj fields))) =
        Except.ok (Json.obj (fields ++
          [("mcpServers", Json.obj [(MCP_SERVER_KEY, mcpEntry port auth)])])) := by
      unfold write_mcp_settings
      simp only [Option.getD_some, hfindN, Option.map_none', Option.getD_none]
      rw [hins]
    have hfind2 : (fields ++
        [("mcpServers", Json.obj [(MCP_SERVER_KEY, mcpEntry port auth)])]).find?
          (fun p => p.1 = "mcpServers") =
        some ("mcpServers", Json.obj [(MCP_SERVER_KEY, mcpEntry port auth)]) := by
      rw [find?_append_of_none fields _ _ hfindN]
      simp [List.find?_cons]
    have hremfields : objRemove (fields ++
        [("mcpServers", Json.obj [(MCP_SERVER_KEY, mcpEntry port auth)])])
          "mcpServers" = fields := by
      unfold objRemove
      rw [List.filter_append]
      rw [List.filter_eq_self.mpr (fun p hp => by simpa using hf p hp)]
      simp
    unfold registerThenUnregister
    rw [hw]
    show remove_mcp_settings (Disk.file (some (Json.obj _))) = _
    unfold remove_mcp_settings
    simp only [Option.getD_some, hfind2, Option.map_some']
    rw [show objRemove [(MCP_SERVER_KEY, mcpEntry port auth)] MCP_SERVER_KEY =
      [] from rfl]
    simp only [List.isEmpty_nil, if_true]
    rw [hremfields]
  · intro d d2 h
    cases d with
    | absent =>
      cases h
      rfl
    | unreadable => cases h
    | file parsed =>
      cases parsed with
      | none =>
        cases h
        rfl
      | some v =>
        cases v with
        | null => cases h; rfl
        | bool b => cases h; rfl
        | num n => cases h; rfl
        | str s => cases h; rfl
        | arr items => cases h; rfl
        | obj fields =>
          rw [remove_mcp_settings] at h
          simp only [Option.getD_some] at h
          cases hfind : fields.find? (fun p => p.1 = "mcpServers") with
          | none =>
            rw [hfind] at h
            simp only [Option.map_none'] at h
            cases h
            exact hnoop fields hfind
          | some q =>
            obtain ⟨key, val⟩ := q
            rw [hfind] at h
            simp only [Option.map_some'] at h
            cases val with
            | null => cases h; rw [remove_mcp_settings]; simp only [Option.getD_some,
                hfind, Option.map_some']
            | bool b => cases h; rw [remove_mcp_settings]; simp only [Option.getD_some,
                hfind, Option.map_some']
            | num n => cases h; rw [remove_mcp_settings]; simp only [Option.getD_some,
                hfind, Option.map_some']
            | str s => cases h; rw [remove_mcp_settings]; simp only [Option.getD_some,
                hfind, Option.map_some']
            | arr items => cases h; rw [remove_mcp_settings]; simp only [Option.getD_some,
                hfind, Option.map_some']
            | obj ms =>
              have h2 : Except.ok (Disk.file (some (Json.obj
                  (if (objRemove ms MCP_SERVER_KEY).isEmpty = true
                   then objRemove fields "mcpServers"
                   else objInsert fields "mcpServers"
                     (Json.obj (objRemove ms MCP_SERVER_KEY)))))) =
                  Except.ok d2 := h
              by_cases hempty : (objRemove ms MCP_SERVER_KEY).isEmpty = true
              · rw [if_pos hempty] at h2
                cases h2
                exact hnoop _ (find?_objRemove fields "mcpServers")
              · rw [if_neg hempty] at h2
                cases h2
                rw [remove_mcp_settings]
                simp only [Option.getD_some, find?_objInsert, Option.map_some']
                rw [objRemove_idem]
                rw [if_neg hempty]
                rw [objInsert_idem]

/-- C7 witness: a document `{"other": 1}` with no `mcpServers` key is restored
exactly by register-then-unregister, and a stale extra unregister is a no-op. -/
theorem c7_register_unregister_witness :
    registerThenUnregister 1234 "tok"
      (Disk.file (some (Json.obj [("other", Json.num 1)]))) =
      Except.ok (Disk.file (some (Json.obj [("other", Json.num 1)]))) ∧
    remove_mcp_settings (Disk.file (some (Json.obj [("other", Json.num 1)]))) =
      Except.ok (Disk.file (some (Json.obj [("other", Json.num 1)]))) :=
  ⟨(c7_register_unregister 1234 "tok").1 [("other", Json.num 1)]
      (by
        intro p hp
        simp only [List.mem_singleton] at hp
        subst hp
        simp),
   (c7_register_unregister 1234 "tok").2.2.1 [("other", Json.num 1)] rfl⟩

end Aiterm
